import Mathlib

/-!
Verification development for the capacity-planner backend
(`backend/capacity/views.py`, `backend/capacity/serializers.py`,
`backend/capacity/middleware.py`,
`backend/capacity/management/commands/cleanup_inactive_sessions.py`).

The definitions below are a shallow embedding of the department-scoped
authorization layer and the session registry of that codebase: pure Python
helper functions become Lean functions, Django ORM state (the
`UserSession` and `ProjectBudget` tables) becomes explicit list-passing,
and JSON request payloads become a small inductive value type.
-/

namespace CapacityPlanner

/-- Department codes, from `capacity/models.py` (`Department.TextChoices`):
PM, MED, HD, MFG, BUILD, PRG. -/
inductive Department where
  | pm
  | med
  | hd
  | mfg
  | build
  | prg
deriving DecidableEq, Repr

/-- Modelled from the spec: the `UserDepartment` enumeration is imported by
`views.py` from the models module but its declaration is not among the
provided sources.  Per the spec it is the closed department enumeration
plus the `OTHER` classification, with codes shared with `Department`. -/
inductive UserDepartment where
  | pm
  | med
  | hd
  | mfg
  | build
  | prg
  | other
deriving DecidableEq, Repr

/-- Modelled from the spec: the `OtherDepartment` sub-classification enum
(imported by `views.py`, declaration not among the provided sources).
The repository's tests use exactly `BUSINESS_INTELLIGENCE` and
`HEAD_ENGINEERING`. -/
inductive OtherDepartment where
  | businessIntelligence
  | headEngineering
deriving DecidableEq, Repr

/-- Embedding of a `Department` code into the user-department code space
(the Python code compares the two enums as equal strings). -/
def Department.toUserDepartment : Department → UserDepartment
  | .pm => .pm
  | .med => .med
  | .hd => .hd
  | .mfg => .mfg
  | .build => .build
  | .prg => .prg

/-- Modelled from the spec: the `UserProfile` record attached to a user
(declaration not among the provided sources); `views.py` reads its
`department` and `other_department` attributes. -/
structure UserProfile where
  department : Option UserDepartment
  otherDepartment : Option OtherDepartment
deriving DecidableEq, Repr

/-- An authenticated actor as read by the views: the Django `User` flags
plus the optional profile and the optional backing `Employee` record
(only its department is read). -/
structure Principal where
  isAuthenticated : Bool
  isSuperuser : Bool
  isStaff : Bool
  profile : Option UserProfile
  employeeDepartment : Option Department
deriving DecidableEq, Repr

/-- `_resolve_user_department` (views.py): profile first, then the linked
employee record, else nothing. -/
def resolveUserDepartment (u : Principal) :
    Option UserDepartment × Option OtherDepartment :=
  match u.profile with
  | some p => (p.department, p.otherDepartment)
  | none =>
    match u.employeeDepartment with
    | some d => (some d.toUserDepartment, none)
    | none => (none, none)

/-- `_has_full_access` (views.py): authenticated and either
superuser/staff, or department PM, or OTHER with Business Intelligence. -/
def hasFullAccess (u : Principal) : Bool :=
  if !u.isAuthenticated then false
  else if u.isSuperuser || u.isStaff then true
  else
    let resolved := resolveUserDepartment u
    if resolved.1 = some .pm then true
    else if resolved.1 = some .other && resolved.2 = some .businessIntelligence then
      true
    else false

/-- `_is_read_only_user` (views.py): department OTHER with an
other-department different from Business Intelligence. -/
def isReadOnlyUser (u : Principal) : Bool :=
  let resolved := resolveUserDepartment u
  resolved.1 = some .other && resolved.2 ≠ some .businessIntelligence

/-- `_can_edit_department` (views.py): full access edits everything,
read-only users edit nothing, otherwise the user's own department or the
shared BUILD/MFG group. -/
def canEditDepartment (u : Principal) (departmentCode : Department) : Bool :=
  if hasFullAccess u then true
  else if isReadOnlyUser u then false
  else
    match (resolveUserDepartment u).1 with
    | none => false
    | some userDepartment =>
      let shared : List UserDepartment := [.build, .mfg]
      if userDepartment ∈ shared && departmentCode.toUserDepartment ∈ shared then
        true
      else
        userDepartment = departmentCode.toUserDepartment

/-- Outcome of a permission gate: pass, or a `PermissionDenied` with the
message raised by the view. -/
inductive PermResult where
  | ok
  | forbidden (msg : String)
deriving DecidableEq, Repr

/-- `EmployeeViewSet._ensure_employee_edit_permission` (views.py):
full access passes, read-only is rejected, and otherwise the (present)
target department must pass `_can_edit_department`. -/
def ensureEmployeeEditPermission (u : Principal) (department : Option Department) :
    PermResult :=
  if hasFullAccess u then .ok
  else if isReadOnlyUser u then .forbidden "Read-only access."
  else
    match department with
    | none => .forbidden "No permission to modify this department."
    | some d =>
      if canEditDepartment u d then .ok
      else .forbidden "No permission to modify this department."

/-- The access tier derived per request; the views have no single tier
value but branch on `_has_full_access`, `_is_read_only_user` and the
resolved department, which induces exactly this disjoint classification. -/
inductive AccessTier where
  | fullAccess
  | readOnly
  | departmentScoped (d : UserDepartment)
  | unaffiliated
deriving DecidableEq, Repr

/-- The tier classification induced by the three user-access helpers in
views.py, in the order the views consult them. -/
def resolveAccess (u : Principal) : AccessTier :=
  if hasFullAccess u then .fullAccess
  else if isReadOnlyUser u then .readOnly
  else
    match (resolveUserDepartment u).1 with
    | some d => .departmentScoped d
    | none => .unaffiliated

/-- A Head-Engineering classified principal (department OTHER,
other-department Head Engineering), as in the repository's
`HeadEngineeringPermissionTests`. -/
def headEngineeringPrincipal : Principal :=
  { isAuthenticated := true
    isSuperuser := false
    isStaff := false
    profile := some { department := some .other, otherDepartment := some .headEngineering }
    employeeDepartment := none }

example : canEditDepartment headEngineeringPrincipal .med = false := by decide

example : resolveAccess headEngineeringPrincipal = .readOnly := by decide

/-! ### String helpers -/

/-- ASCII lower-casing of one character. -/
def asciiLower (c : Char) : Char :=
  if 'A' ≤ c ∧ c ≤ 'Z' then Char.ofNat (c.toNat + 32) else c

/-- ASCII upper-casing of one character. -/
def asciiUpper (c : Char) : Char :=
  if 'a' ≤ c ∧ c ≤ 'z' then Char.ofNat (c.toNat - 32) else c

/-- Lower-case a string (models Python's case-insensitive comparison on
the ASCII identifiers this codebase handles). -/
def strLower (s : String) : String :=
  ⟨s.data.map asciiLower⟩

/-- Upper-case a string (`str.upper()` on the ASCII department codes). -/
def strUpper (s : String) : String :=
  ⟨s.data.map asciiUpper⟩

/-- Trim surrounding whitespace (`str.strip()`). -/
def strTrim (s : String) : String :=
  ⟨((s.data.dropWhile Char.isWhitespace).reverse.dropWhile
      Char.isWhitespace).reverse⟩

/-! ### Session registry (`UserSession` model, login serializer, logout
view, inactivity sweep) -/

/-- A row of the `UserSession` table (`capacity/models.py`).  Timestamps
are integers on an arbitrary clock; `deviceInfo` is the opaque JSON blob. -/
structure Session where
  id : Nat
  userId : Nat
  refreshToken : String
  deviceInfo : String
  createdAt : Int
  lastActivity : Int
  isActive : Bool
deriving DecidableEq, Repr

/-- The `UserSession` table. -/
abbrev SessionTable := List Session

/-- `UserSession.objects.filter(user=user, is_active=True).count()`
(serializers.py, login cap check). -/
def countActiveSessions (tbl : SessionTable) (userId : Nat) : Nat :=
  (tbl.filter fun s => s.userId == userId && s.isActive).length

/-- A row of the Django `auth_user` table as read during login. -/
structure UserRecord where
  id : Nat
  username : String
  password : String
  email : String
  firstName : String
  lastName : String
deriving DecidableEq, Repr

/-- `User.objects.filter(username__iexact=username).first()`
(serializers.py): case-insensitive username lookup. -/
def findUserCaseInsensitive (users : List UserRecord) (username : String) :
    Option UserRecord :=
  users.find? fun u => strLower u.username == strLower username

/-- The claims carried by an issued access credential.  `RefreshToken.for_user`
sets `user_id`; the login serializer then adds `username`, `email`,
`first_name` and `last_name`.  `sessionId` records the optional
`session_id` claim read back by the middleware, the logout view and the
session-status view. -/
structure AccessToken where
  userId : Nat
  username : String
  email : String
  firstName : String
  lastName : String
  sessionId : Option Nat
deriving DecidableEq, Repr

/-- Login failure kinds raised by the serializer's `validate`. -/
inductive LoginError where
  | tooManySessions
  | invalidCredentials
deriving DecidableEq, Repr

/-- Result of a login attempt: the session table afterwards, and either
an error or the issued (access, refresh) credential pair. -/
structure LoginResult where
  table : SessionTable
  outcome : Except LoginError (AccessToken × String)
deriving Repr

/-- `CaseInsensitiveTokenObtainPairSerializer.validate` (serializers.py):
case-insensitive user lookup and password check; reject when the user
already has two active sessions; otherwise mint the credential pair
(custom claims `username`/`email`/`first_name`/`last_name`; the code
never writes a `session_id` claim) and create the session row with
`is_active=True` and both timestamps set by the ORM to the current time.
`freshSessionId` and `freshRefresh` stand for the generated UUID and the
minted refresh credential. -/
def loginValidate (users : List UserRecord) (tbl : SessionTable)
    (username password : String) (now : Int)
    (freshSessionId : Nat) (freshRefresh : String) (device : String) :
    LoginResult :=
  match findUserCaseInsensitive users username with
  | none => { table := tbl, outcome := .error .invalidCredentials }
  | some user =>
    if user.password == password then
      if countActiveSessions tbl user.id ≥ 2 then
        { table := tbl, outcome := .error .tooManySessions }
      else
        let access : AccessToken :=
          { userId := user.id
            username := user.username
            email := user.email
            firstName := user.firstName
            lastName := user.lastName
            sessionId := none }
        let sess : Session :=
          { id := freshSessionId
            userId := user.id
            refreshToken := freshRefresh
            deviceInfo := device
            createdAt := now
            lastActivity := now
            isActive := true }
        { table := tbl ++ [sess], outcome := .ok (access, freshRefresh) }
    else
      { table := tbl, outcome := .error .invalidCredentials }

/-- The inactivity sweep, `UPDATE ... SET is_active=False WHERE
is_active=True AND last_activity < threshold`, as performed by
`SessionActivityMiddleware.process_view`, the `cleanup_inactive_sessions`
command and the session-status view.  `threshold` is
`now - INACTIVITY_TIMEOUT`. -/
def sweepSessions (tbl : SessionTable) (threshold : Int) : SessionTable :=
  tbl.map fun s =>
    if s.isActive && decide (s.lastActivity < threshold) then
      { s with isActive := false }
    else s

/-- The effective inactivity timeout in minutes: `max(1, configured)`
(middleware, command and session-status view all apply this floor). -/
def effectiveTimeoutMinutes (configured : Int) : Int :=
  max 1 configured

/-- `LogoutView.post` (views.py): deactivate the caller's sessions,
preferring the truthy `session_id` claim of the access credential, then
the refresh credential from the body, then all of the caller's active
sessions.  Matched rows get `is_active=False` and `last_activity=now`. -/
def logoutPost (tbl : SessionTable) (userId : Nat)
    (sessionIdClaim : Option Nat) (refreshToken : Option String)
    (now : Int) : SessionTable :=
  match sessionIdClaim with
  | some sid =>
    tbl.map fun s =>
      if s.userId == userId && s.id == sid && s.isActive then
        { s with isActive := false, lastActivity := now }
      else s
  | none =>
    match refreshToken with
    | some rt =>
      tbl.map fun s =>
        if s.userId == userId && s.refreshToken == rt && s.isActive then
          { s with isActive := false, lastActivity := now }
        else s
    | none =>
      tbl.map fun s =>
        if s.userId == userId && s.isActive then
          { s with isActive := false, lastActivity := now }
        else s

/-! ### JSON payload values (`request.data`) -/

/- A Python value as it occurs in a deserialized request payload or on a
model instance consulted by the permission helpers: `None`, booleans,
integers, floats (as rationals), strings, date objects (carried as their
ISO-8601 text, the one attribute the code reads via `isoformat`), lists
(`JList`) and string-keyed dicts (`JObj`). -/
mutual
inductive JValue where
  | null
  | b (bv : Bool)
  | i (n : Int)
  | q (x : ℚ)
  | s (str : String)
  | date (iso : String)
  | list (items : JList)
  | dict (entries : JObj)
deriving DecidableEq, Repr
inductive JList where
  | nil
  | cons (head : JValue) (tail : JList)
deriving DecidableEq, Repr
inductive JObj where
  | nil
  | cons (key : String) (val : JValue) (tail : JObj)
deriving DecidableEq, Repr
end

/-- The elements of a JSON list. -/
def JList.toList : JList → List JValue
  | .nil => []
  | .cons head tail => head :: tail.toList

/-- Build a JSON list from a Lean list. -/
def JList.ofList : List JValue → JList
  | [] => .nil
  | head :: tail => .cons head (JList.ofList tail)

/-- The key-value pairs of a JSON dict, in insertion order. -/
def JObj.entries : JObj → List (String × JValue)
  | .nil => []
  | .cons key val tail => (key, val) :: tail.entries

/-- Build a JSON dict from a Lean association list. -/
def JObj.ofList : List (String × JValue) → JObj
  | [] => .nil
  | (key, val) :: tail => .cons key val (JObj.ofList tail)

/- Textual form of Python `str()` on a value.  The exact text of the
list/dict/float cases is never compared against a matching string in this
development; only scalar cases are exercised by the theorems below. -/
mutual
def pyStr : JValue → String
  | .null => "None"
  | .b true => "True"
  | .b false => "False"
  | .i n => toString n
  | .q x => toString x
  | .s str => str
  | .date iso => iso
  | .list items => "[" ++ String.intercalate ", " (pyStrList items) ++ "]"
  | .dict entries =>
    "\x7b" ++ String.intercalate ", " (pyStrObj entries) ++ "\x7d"
def pyStrList : JList → List String
  | .nil => []
  | .cons head tail => pyStr head :: pyStrList tail
def pyStrObj : JObj → List String
  | .nil => []
  | .cons key val tail => (key ++ ": " ++ pyStr val) :: pyStrObj tail
end

/-- Python truthiness of a payload value. -/
def jTruthy : JValue → Bool
  | .null => false
  | .b bv => bv
  | .i n => n ≠ 0
  | .q x => x ≠ 0
  | .s str => str ≠ ""
  | .date _ => true
  | .list .nil => false
  | .list (.cons _ _) => true
  | .dict .nil => false
  | .dict (.cons _ _ _) => true

/-- The `value in \x7b'', None\x7d` test used by the normalization
helpers. -/
def isNullOrEmptyStr : JValue → Bool
  | .null => true
  | .s "" => true
  | _ => false

/-- Python `int(value)` as used by `_normalize_stage_entry`: ints pass
through, booleans map to 0/1, floats truncate toward zero, strings parse
as decimal integers; anything else raises (modelled as `none`). -/
def intCoerce : JValue → Option Int
  | .i n => some n
  | .b bv => some (if bv then 1 else 0)
  | .q x => some (x.num.tdiv (x.den : Int))
  | .s str => str.toInt?
  | _ => none

/-- Parse a decimal literal `[sign]digits[.digits]` as a rational;
`none` for anything else.  Models Python `float(str)` on the plain
decimal forms. -/
def parseDecimal? (str : String) : Option ℚ :=
  let (sign, rest) :=
    if str.startsWith "-" then ((-1 : ℚ), str.drop 1)
    else if str.startsWith "+" then ((1 : ℚ), str.drop 1)
    else ((1 : ℚ), str)
  match rest.split (· = '.') with
  | [intPart] =>
    if intPart.length > 0 && intPart.all Char.isDigit then
      (intPart.toNat?).map fun n => sign * (n : ℚ)
    else none
  | [intPart, fracPart] =>
    if (intPart.length > 0 || fracPart.length > 0)
        && intPart.all Char.isDigit && fracPart.all Char.isDigit then
      match intPart.toNat?, fracPart.toNat? with
      | some n, some f =>
        some (sign * ((n : ℚ) + (f : ℚ) / ((10 : ℚ) ^ fracPart.length)))
      | some n, none => some (sign * (n : ℚ))
      | none, some f => some (sign * ((f : ℚ) / ((10 : ℚ) ^ fracPart.length)))
      | none, none => none
    else none
  | _ => none

/-- `ProjectViewSet._coerce_float` (views.py): `float(value)` with a
default on `TypeError`/`ValueError`. -/
def coerceFloat (v : JValue) (default : ℚ) : ℚ :=
  match v with
  | .i n => (n : ℚ)
  | .q x => x
  | .b bv => if bv then 1 else 0
  | .s str => (parseDecimal? str).getD default
  | _ => default

/-- `ProjectViewSet._as_comparable` (views.py): `None`/empty string
collapse to `None`, dates to ISO text, booleans to lowercase text, and
everything else to `str(value)`. -/
def asComparable : JValue → Option String
  | .null => none
  | .s "" => none
  | .date iso => some iso
  | .b bv => some (if bv then "true" else "false")
  | v => some (pyStr v)

/-- `ProjectViewSet._normalize_department_code` (views.py): strings only,
trimmed and upper-cased, and kept only when among the `Department`
codes. -/
def normalizeDepartmentCode (v : JValue) : Option Department :=
  match v with
  | .s str =>
    match strUpper (strTrim str) with
    | "PM" => some .pm
    | "MED" => some .med
    | "HD" => some .hd
    | "MFG" => some .mfg
    | "BUILD" => some .build
    | "PRG" => some .prg
    | _ => none
  | _ => none

/-! ### Project update payload policy (`ProjectViewSet`) -/

/-- A request body (`request.data`), a string-keyed JSON dict. -/
abbrev RequestData := List (String × JValue)

/-- `ProjectViewSet._get_first_present_value` (views.py): the value under
the first key present in the dict, with a presence flag; `(None, False)`
when none of the keys is present. -/
def getFirstPresentValue (data : RequestData) : List String → JValue × Bool
  | [] => (.null, false)
  | key :: keys =>
    match data.lookup key with
    | some v => (v, true)
    | none => getFirstPresentValue data keys

/-- A row of the `DepartmentStageConfig` table for one project
(`capacity/models.py`); at most one row per `(project, department)` by
the table's uniqueness constraint.  The department code is validated
against `Department.choices` on write, so it is modelled by the closed
enumeration. -/
structure StageRow where
  department : Department
  stage : Option String
  weekStart : Int
  weekEnd : Int
  departmentStartDate : Option String
deriving DecidableEq, Repr

/-- A row of the `ProjectBudget` table for one project
(`capacity/models.py`); at most one row per `(project, department)`. -/
structure BudgetRow where
  department : Department
  hoursAllocated : ℚ
  hoursUtilized : ℚ
  hoursForecast : ℚ
deriving DecidableEq, Repr

/-- The fields of a `Project` row consulted by
`ProjectViewSet`'s permission helpers, together with its stage-config
rows, budget rows and visibility list. -/
structure Project where
  name : String
  client : String
  startDate : String
  endDate : String
  facility : String
  numberOfWeeks : Int
  projectManagerId : Option String
  visibleInDepartments : List JValue
  stages : List StageRow
  budgets : List BudgetRow
deriving DecidableEq, Repr

/-- A normalized stage signature entry, the tuple
`(stage, week_start, week_end, department_start_date)` built by
`_normalize_stage_entry` and by the existing-rows side of
`_changed_departments_from_payload`. -/
structure StageSig where
  stage : JValue
  weekStart : Int
  weekEnd : Int
  startDate : Option String
deriving DecidableEq, Repr

/-- Constructor rank, used to order signature entries of different value
kinds. -/
def JValue.rank : JValue → Nat
  | .null => 0
  | .b _ => 1
  | .i _ => 2
  | .q _ => 3
  | .s _ => 4
  | .date _ => 5
  | .list _ => 6
  | .dict _ => 7

/-- Ordering on optional strings: `none` first, then lexicographic. -/
def optStrLE : Option String → Option String → Bool
  | none, _ => true
  | some _, none => false
  | some a, some b => a == b || a < b

/-- Total order on signature entries used for the source's `list.sort()`.
Python's tuple sort compares the stage components only when they are
unequal (and raises on a `None`/`str` mix, which makes the request fail
before any permission decision); any deterministic total order yields the
same signature equalities, which is all the policy consumes. -/
def stageSigLE (a b : StageSig) : Bool :=
  if a.stage.rank ≠ b.stage.rank then a.stage.rank < b.stage.rank
  else if pyStr a.stage ≠ pyStr b.stage then pyStr a.stage < pyStr b.stage
  else if a.weekStart ≠ b.weekStart then a.weekStart < b.weekStart
  else if a.weekEnd ≠ b.weekEnd then a.weekEnd < b.weekEnd
  else optStrLE a.startDate b.startDate

/-- Insert into a list sorted by `stageSigLE`. -/
def insertStageSig (a : StageSig) : List StageSig → List StageSig
  | [] => [a]
  | head :: tail =>
    if stageSigLE a head then a :: head :: tail
    else head :: insertStageSig a tail

/-- Sort signature entries (the source's `normalized.sort()` /
`sorted(entries)`). -/
def sortStageSigs : List StageSig → List StageSig
  | [] => []
  | head :: tail => insertStageSig head (sortStageSigs tail)

/-- `ProjectViewSet._normalize_stage_entry` (views.py): dicts only; the
truthy `stage` value or `None`; `week_start`/`week_end` (snake or camel
key) must be non-null, non-empty and coercible to `int`; the optional
department start date becomes its text form. -/
def normalizeStageEntry (v : JValue) : Option StageSig :=
  match v with
  | .dict rawEntries =>
    let entries := rawEntries.entries
    let stageRaw := (entries.lookup "stage").getD .null
    let stage := if jTruthy stageRaw then stageRaw else .null
    let weekStart :=
      (entries.lookup "week_start").getD ((entries.lookup "weekStart").getD .null)
    let weekEnd :=
      (entries.lookup "week_end").getD ((entries.lookup "weekEnd").getD .null)
    let departmentStart :=
      (entries.lookup "department_start_date").getD
        ((entries.lookup "departmentStartDate").getD .null)
    if isNullOrEmptyStr weekStart || isNullOrEmptyStr weekEnd then none
    else
      match intCoerce weekStart, intCoerce weekEnd with
      | some ns, some ne =>
        let dateText :=
          match departmentStart with
          | .date iso => JValue.s iso
          | other => other
        let startDate : Option String :=
          if isNullOrEmptyStr dateText then none else some (pyStr dateText)
        some { stage := stage, weekStart := ns, weekEnd := ne, startDate := startDate }
      | _, _ => none
  | _ => none

/-- `ProjectViewSet._normalize_stage_entries` (views.py): lists only;
normalize each entry, drop the unusable ones, sort. -/
def normalizeStageEntries (v : JValue) : List StageSig :=
  match v with
  | .list items => sortStageSigs (items.toList.filterMap normalizeStageEntry)
  | _ => []

/-- The signature tuple of an existing `DepartmentStageConfig` row
(`config.stage or None`, the week numbers, the ISO start date). -/
def stageRowSig (r : StageRow) : StageSig :=
  { stage :=
      match r.stage with
      | none => .null
      | some "" => .null
      | some st => .s st
    weekStart := r.weekStart
    weekEnd := r.weekEnd
    startDate := r.departmentStartDate }

/-- The per-department signatures of a project's existing stage rows
(`existing_stage_signatures` in `_changed_departments_from_payload`):
departments with at least one row, each mapped to its sorted signature. -/
def existingStageSignatures (p : Project) : List (Department × List StageSig) :=
  (p.stages.map (·.department)).dedup.map fun d =>
    (d, sortStageSigs ((p.stages.filter fun r => r.department = d).map stageRowSig))

/-- Dict-style upsert: replace the value under an existing key, else
append. -/
def upsertSig (acc : List (Department × List StageSig)) (d : Department)
    (v : List StageSig) : List (Department × List StageSig) :=
  if acc.any (·.1 = d) then acc.map fun e => if e.1 = d then (d, v) else e
  else acc ++ [(d, v)]

/-- One iteration of the `payload_stage_signatures` loop: normalize the
raw department key (skipping unrecognized ones) and store the normalized
signature under it, later duplicates overwriting. -/
def payloadStageStep (acc : List (Department × List StageSig))
    (kv : String × JValue) : List (Department × List StageSig) :=
  match normalizeDepartmentCode (.s kv.1) with
  | some d => upsertSig acc d (normalizeStageEntries kv.2)
  | none => acc

/-- The per-department signatures of the payload's stage dict
(`payload_stage_signatures` in `_changed_departments_from_payload`). -/
def payloadStageSignatures (m : List (String × JValue)) :
    List (Department × List StageSig) :=
  m.foldl payloadStageStep []

/-- The stage-config contribution to the changed-departments set:
departments present in current data but absent from the payload, plus
payload departments whose signature differs from the current one
(empty when the department has no current rows). -/
def stageChangedDepartments (p : Project) (m : List (String × JValue)) :
    List Department :=
  let existing := existingStageSignatures p
  let payload := payloadStageSignatures m
  (existing.map Prod.fst).filter (fun d => ¬ (payload.map Prod.fst).contains d)
    ++ (payload.filter fun e => e.2 ≠ ((existing.lookup e.1).getD [])).map Prod.fst

/-- The budget-hours contribution: payload departments whose coerced
incoming value differs from the existing allocated hours (0 without a
budget row) by more than `1e-6`. -/
def hoursChangedDepartments (p : Project) (m : List (String × JValue)) :
    List Department :=
  let existingHours : List (Department × ℚ) :=
    p.budgets.map fun bgt => (bgt.department, bgt.hoursAllocated)
  m.filterMap fun kv =>
    match normalizeDepartmentCode (.s kv.1) with
    | some d =>
      let incoming := coerceFloat kv.2 0
      let existing := (existingHours.reverse.lookup d).getD 0
      if abs (incoming - existing) > (1 / 1000000 : ℚ) then some d else none
    | none => none

/-- The visibility-list contribution: the symmetric difference between
the normalized incoming and current visibility department sets. -/
def visibilityChangedDepartments (p : Project) (l : List JValue) :
    List Department :=
  let incoming := l.filterMap normalizeDepartmentCode
  let current := p.visibleInDepartments.filterMap normalizeDepartmentCode
  incoming.filter (fun d => ¬ current.contains d)
    ++ current.filter (fun d => ¬ incoming.contains d)

/-- `ProjectViewSet._changed_departments_from_payload` (views.py), as the
list of departments collected from the three payload sub-structures
(Python builds a set; only membership is ever consumed). -/
def changedDepartmentsFromPayload (p : Project) (data : RequestData) :
    List Department :=
  let stagePart :=
    match getFirstPresentValue data ["department_stages", "departmentStages"] with
    | (.dict m, true) => stageChangedDepartments p m.entries
    | _ => []
  let hoursPart :=
    match getFirstPresentValue data
        ["department_hours_allocated", "departmentHoursAllocated"] with
    | (.dict m, true) => hoursChangedDepartments p m.entries
    | _ => []
  let visibilityPart :=
    match getFirstPresentValue data
        ["visible_in_departments", "visibleInDepartments"] with
    | (.list l, true) => visibilityChangedDepartments p l.toList
    | _ => []
  stagePart ++ hoursPart ++ visibilityPart

/-- The shared-field table of `_shared_project_fields_modified`: accepted
payload keys and the corresponding current value on the project. -/
def sharedFieldSpecs (p : Project) : List (List String × JValue) :=
  [ (["name"], .s p.name)
  , (["client"], .s p.client)
  , (["start_date", "startDate"], .date p.startDate)
  , (["end_date", "endDate"], .date p.endDate)
  , (["facility"], .s p.facility)
  , (["number_of_weeks", "numberOfWeeks"], .i p.numberOfWeeks)
  , (["project_manager_id", "projectManagerId"],
      match p.projectManagerId with
      | some pm => .s pm
      | none => .null) ]

/-- `ProjectViewSet._shared_project_fields_modified` (views.py): some
shared field is present in the payload and differs from the current
value after `_as_comparable` normalization. -/
def sharedProjectFieldsModified (p : Project) (data : RequestData) : Bool :=
  (sharedFieldSpecs p).any fun spec =>
    let (incoming, isPresent) := getFirstPresentValue data spec.1
    isPresent && asComparable incoming ≠ asComparable spec.2

/-- `ProjectViewSet._ensure_project_update_permission` (views.py): full
access passes; read-only is rejected; otherwise any modified shared field
is rejected, then any changed department failing `_can_edit_department`
is rejected. -/
def ensureProjectUpdatePermission (u : Principal) (p : Project)
    (data : RequestData) : PermResult :=
  if hasFullAccess u then .ok
  else if isReadOnlyUser u then .forbidden "No permission to modify projects."
  else if sharedProjectFieldsModified p data then
    .forbidden "No permission to modify shared project fields."
  else if (changedDepartmentsFromPayload p data).any
      (fun d => !canEditDepartment u d) then
    .forbidden "No permission to modify projects for this department."
  else .ok

/-! ### `update_budget_hours` action (`ProjectViewSet`) -/

/-- Result of the `update-budget-hours` action: a 400 when no department
is given, else the saved budget row and the budget table afterwards. -/
inductive BudgetUpdateResult where
  | badRequest (msg : String)
  | ok (budget : BudgetRow) (budgets : List BudgetRow)
deriving DecidableEq, Repr

/-- `ProjectViewSet.update_budget_hours` (views.py): requires a truthy
department (absent/falsy modelled as `none`); `get_or_create` on the
project's budget rows with `hours_allocated=0` and the given hours as
defaults; on an existing row, overwrite whichever of the two hour fields
was provided.  The principal is never consulted: the action performs no
tier or department check. -/
def updateBudgetHours (user : Principal) (budgets : List BudgetRow)
    (department : Option Department)
    (hoursUtilized hoursForecast : Option ℚ) : BudgetUpdateResult :=
  match department with
  | none => .badRequest "Department is required"
  | some d =>
    match budgets.find? (fun bgt => bgt.department == d) with
    | some bgt =>
      let updated :=
        { bgt with
            hoursUtilized := hoursUtilized.getD bgt.hoursUtilized
            hoursForecast := hoursForecast.getD bgt.hoursForecast }
      .ok updated
        (budgets.map fun x => if x.department == d then updated else x)
    | none =>
      let created : BudgetRow :=
        { department := d
          hoursAllocated := 0
          hoursUtilized := hoursUtilized.getD 0
          hoursForecast := hoursForecast.getD 0 }
      .ok created (budgets ++ [created])

/-! ## Theorems -/

/-- Unfolding `resolveAccess` on the department-scoped branch. -/
theorem resolveAccess_departmentScoped_elim (u : Principal) (d : UserDepartment)
    (h : resolveAccess u = .departmentScoped d) :
    hasFullAccess u = false ∧ isReadOnlyUser u = false ∧
      (resolveUserDepartment u).1 = some d := by
  unfold resolveAccess at h
  cases hfa : hasFullAccess u with
  | true => rw [hfa] at h; simp at h
  | false =>
    rw [hfa] at h
    simp only [Bool.false_eq_true, if_false] at h
    cases hro : isReadOnlyUser u with
    | true => rw [hro] at h; simp at h
    | false =>
      rw [hro] at h
      simp only [Bool.false_eq_true, if_false] at h
      rcases hd : (resolveUserDepartment u).1 with _ | d0
      · rw [hd] at h; simp at h
      · rw [hd] at h
        simp only [AccessTier.departmentScoped.injEq] at h
        exact ⟨rfl, rfl, by rw [h]⟩

/-- Characterization of `_has_full_access` for an authenticated user, in
terms of the resolved department pair. -/
theorem hasFullAccess_iff (u : Principal) (h : u.isAuthenticated = true) :
    hasFullAccess u = true ↔
      (u.isSuperuser = true ∨ u.isStaff = true ∨
        (resolveUserDepartment u).1 = some .pm ∨
        ((resolveUserDepartment u).1 = some .other ∧
          (resolveUserDepartment u).2 = some .businessIntelligence)) := by
  unfold hasFullAccess
  rcases hr : resolveUserDepartment u with ⟨dept, odept⟩
  simp only [h, Bool.not_true, Bool.false_eq_true, if_false]
  split_ifs with h1 h2 h3
  · simp only [Bool.or_eq_true] at h1
    simp only [true_iff]
    tauto
  · simp only [true_iff]
    tauto
  · simp only [Bool.and_eq_true, decide_eq_true_eq] at h3
    simp only [true_iff]
    tauto
  · simp only [Bool.or_eq_true] at h1
    simp only [Bool.and_eq_true, decide_eq_true_eq] at h3
    simp only [Bool.false_eq_true, false_iff]
    push_neg at h1 ⊢
    refine ⟨h1.1, h1.2, h2, ?_⟩
    intro hot
    exact fun hbi => h3 ⟨hot, hbi⟩

/-- C7: for every authenticated principal, the access-tier resolution
yields exactly one tier, and the tier is `FullAccess` iff the principal
is superuser or staff, or their resolved department is PM, or their
department is OTHER with other-department Business Intelligence. -/
theorem resolveAccess_unique_and_fullAccess_iff (u : Principal)
    (h : u.isAuthenticated = true) :
    (∃! t : AccessTier, resolveAccess u = t) ∧
    (resolveAccess u = .fullAccess ↔
      (u.isSuperuser = true ∨ u.isStaff = true ∨
        (resolveUserDepartment u).1 = some .pm ∨
        ((resolveUserDepartment u).1 = some .other ∧
          (resolveUserDepartment u).2 = some .businessIntelligence))) := by
  refine ⟨⟨resolveAccess u, rfl, fun t ht => ht.symm⟩, ?_⟩
  rw [← hasFullAccess_iff u h]
  unfold resolveAccess
  constructor
  · intro hf
    cases hfa : hasFullAccess u with
    | true => rfl
    | false =>
      exfalso
      rw [hfa] at hf
      simp only [Bool.false_eq_true, if_false] at hf
      cases hro : isReadOnlyUser u with
      | true => rw [hro] at hf; simp at hf
      | false =>
        rw [hro] at hf
        simp only [Bool.false_eq_true, if_false] at hf
        rcases hd : (resolveUserDepartment u).1 with _ | d0 <;>
          rw [hd] at hf <;> simp at hf
  · intro hfa
    simp [hfa]

/-- A concrete principal whose profile department is PM. -/
def pmPrincipal : Principal :=
  { isAuthenticated := true
    isSuperuser := false
    isStaff := false
    profile := some { department := some .pm, otherDepartment := none }
    employeeDepartment := none }

/-- Witness for C7: the PM-department principal is authenticated and
resolves to `FullAccess` by the stated characterization. -/
theorem resolveAccess_unique_and_fullAccess_iff_witness :
    pmPrincipal.isAuthenticated = true ∧
    ((∃! t : AccessTier, resolveAccess pmPrincipal = t) ∧
      (resolveAccess pmPrincipal = .fullAccess ↔
        (pmPrincipal.isSuperuser = true ∨ pmPrincipal.isStaff = true ∨
          (resolveUserDepartment pmPrincipal).1 = some .pm ∨
          ((resolveUserDepartment pmPrincipal).1 = some .other ∧
            (resolveUserDepartment pmPrincipal).2 = some .businessIntelligence)))) :=
  ⟨rfl, resolveAccess_unique_and_fullAccess_iff pmPrincipal rfl⟩

/-- C5: for a department-scoped principal with department `d`,
`_can_edit_department` grants a target department iff it equals `d` or
both lie in the shared BUILD/MFG group; in particular BUILD and MFG may
edit each other while MED may not edit HD. -/
theorem departmentScoped_canEdit_iff (u : Principal) (d : UserDepartment)
    (dept : Department) (h : resolveAccess u = .departmentScoped d) :
    canEditDepartment u dept = true ↔
      (dept.toUserDepartment = d ∨
        ((d = .build ∨ d = .mfg) ∧ (dept = .build ∨ dept = .mfg))) := by
  obtain ⟨hfa, hro, hd⟩ := resolveAccess_departmentScoped_elim u d h
  unfold canEditDepartment
  rw [hfa, hro, hd]
  cases d <;> cases dept <;> decide

/-- A concrete principal whose profile department is BUILD. -/
def buildPrincipal : Principal :=
  { isAuthenticated := true
    isSuperuser := false
    isStaff := false
    profile := some { department := some .build, otherDepartment := none }
    employeeDepartment := none }

/-- Witness for C5: the BUILD-scoped principal satisfies the hypothesis
and, instantiated at target department MFG, is granted the edit. -/
theorem departmentScoped_canEdit_iff_witness :
    resolveAccess buildPrincipal = .departmentScoped .build ∧
    (canEditDepartment buildPrincipal .mfg = true ↔
      (Department.mfg.toUserDepartment = .build ∨
        ((UserDepartment.build = .build ∨ UserDepartment.build = .mfg) ∧
          (Department.mfg = .build ∨ Department.mfg = .mfg)))) :=
  ⟨by decide, departmentScoped_canEdit_iff buildPrincipal .build .mfg (by decide)⟩

/-- C3 (divergence record): a Head-Engineering classified principal
(department OTHER, other-department Head Engineering) is denied the edit
of a MED employee: `_can_edit_department` has no carve-out for the OTHER
classification and `_ensure_employee_edit_permission` rejects every
read-only user outright, while the repository's
`HeadEngineeringPermissionTests` expect the MED edit to succeed. -/
theorem headEngineering_med_edit_denied :
    canEditDepartment headEngineeringPrincipal .med = false ∧
    ensureEmployeeEditPermission headEngineeringPrincipal (some .med) =
      .forbidden "Read-only access." := by
  constructor
  · decide
  · rfl

/-- C4: for a department-scoped principal, the project-update gate denies
with the shared-field `Forbidden` exactly when some shared field present
in the payload differs, after `_as_comparable` normalization, from the
project's current value; when no shared field differs the shared-field
check never produces that denial. -/
theorem sharedFieldGuard_iff (u : Principal) (p : Project) (data : RequestData)
    (d : UserDepartment) (h : resolveAccess u = .departmentScoped d) :
    ensureProjectUpdatePermission u p data =
        .forbidden "No permission to modify shared project fields." ↔
      sharedProjectFieldsModified p data = true := by
  obtain ⟨hfa, hro, _⟩ := resolveAccess_departmentScoped_elim u d h
  unfold ensureProjectUpdatePermission
  rw [hfa, hro]
  simp only [Bool.false_eq_true, if_false]
  cases hsm : sharedProjectFieldsModified p data with
  | true => simp
  | false =>
    simp only [Bool.false_eq_true, if_false, iff_false]
    intro hc
    by_cases hch :
        (changedDepartmentsFromPayload p data).any
          (fun dep => !canEditDepartment u dep) = true
    · rw [if_pos hch] at hc
      exact absurd hc (by decide)
    · rw [if_neg hch] at hc
      exact absurd hc (by decide)

/-- A concrete principal whose profile department is PRG. -/
def prgPrincipal : Principal :=
  { isAuthenticated := true
    isSuperuser := false
    isStaff := false
    profile := some { department := some .prg, otherDepartment := none }
    employeeDepartment := none }

/-- A concrete project used to instantiate the payload-policy theorems. -/
def sampleProject : Project :=
  { name := "Line-1"
    client := "ACME"
    startDate := "2024-01-01"
    endDate := "2024-06-01"
    facility := "AL"
    numberOfWeeks := 20
    projectManagerId := none
    visibleInDepartments := [.s "MED"]
    stages :=
      [ { department := .med
          stage := some "CONCEPT"
          weekStart := 1
          weekEnd := 2
          departmentStartDate := none } ]
    budgets :=
      [ { department := .med
          hoursAllocated := 40
          hoursUtilized := 0
          hoursForecast := 0 } ] }

/-- Witness for C4: the PRG-scoped principal satisfies the hypothesis,
and the gate instantiated at a payload renaming the project is
characterized by the stated equivalence. -/
theorem sharedFieldGuard_iff_witness :
    resolveAccess prgPrincipal = .departmentScoped .prg ∧
    (ensureProjectUpdatePermission prgPrincipal sampleProject
          [("name", .s "Line-2")] =
        .forbidden "No permission to modify shared project fields." ↔
      sharedProjectFieldsModified sampleProject [("name", .s "Line-2")] = true) :=
  ⟨by decide,
    sharedFieldGuard_iff prgPrincipal sampleProject [("name", .s "Line-2")] .prg
      (by decide)⟩

/-- C1: a login attempt with correct (case-insensitively matched)
credentials for a principal holding exactly two active sessions is
rejected with the too-many-sessions error, leaves the session table
unchanged (no row created, no credential pair issued) and keeps the
active-session count at exactly two. -/
theorem login_rejected_at_two_active_sessions (users : List UserRecord)
    (tbl : SessionTable) (u : UserRecord) (username password : String)
    (now : Int) (sid : Nat) (rt device : String)
    (hfind : findUserCaseInsensitive users username = some u)
    (hpw : u.password = password)
    (hcount : countActiveSessions tbl u.id = 2) :
    (loginValidate users tbl username password now sid rt device).outcome =
        .error .tooManySessions ∧
    (loginValidate users tbl username password now sid rt device).table = tbl ∧
    countActiveSessions
        (loginValidate users tbl username password now sid rt device).table u.id
      = 2 := by
  unfold loginValidate
  simp [hfind, hpw, hcount]

/-- A concrete user record for the session-registry witnesses. -/
def aliceUser : UserRecord :=
  { id := 1
    username := "alice"
    password := "pw-1"
    email := "alice@example.com"
    firstName := "Alice"
    lastName := "Lang" }

/-- A session table with exactly two active sessions for `aliceUser`. -/
def aliceTwoSessions : SessionTable :=
  [ { id := 11, userId := 1, refreshToken := "rt-11", deviceInfo := "Device-A"
      createdAt := 0, lastActivity := 5, isActive := true }
  , { id := 12, userId := 1, refreshToken := "rt-12", deviceInfo := "Device-B"
      createdAt := 1, lastActivity := 6, isActive := true } ]

/-- Witness for C1: with two active sessions already present, the third
login with correct credentials is rejected and the table is unchanged. -/
theorem login_rejected_at_two_active_sessions_witness :
    findUserCaseInsensitive [aliceUser] "ALICE" = some aliceUser ∧
    aliceUser.password = "pw-1" ∧
    countActiveSessions aliceTwoSessions aliceUser.id = 2 ∧
    ((loginValidate [aliceUser] aliceTwoSessions "ALICE" "pw-1" 9 13 "rt-13"
          "Device-C").outcome = .error .tooManySessions ∧
      (loginValidate [aliceUser] aliceTwoSessions "ALICE" "pw-1" 9 13 "rt-13"
          "Device-C").table = aliceTwoSessions ∧
      countActiveSessions
          (loginValidate [aliceUser] aliceTwoSessions "ALICE" "pw-1" 9 13 "rt-13"
            "Device-C").table aliceUser.id = 2) :=
  ⟨by decide, rfl, by decide,
    login_rejected_at_two_active_sessions [aliceUser] aliceTwoSessions aliceUser
      "ALICE" "pw-1" 9 13 "rt-13" "Device-C" (by decide) rfl (by decide)⟩

/-- C2 (divergence record): a successful login creates the session row
with `is_active=True` and both timestamps set to the login time, but the
issued access credential carries no `session_id` claim at all — the
serializer only adds `username`/`email`/`first_name`/`last_name`, while
the repository's `SessionControlTests` assert the claim is present. -/
theorem login_issues_access_token_without_session_id :
    (loginValidate [aliceUser] [] "ALICE" "pw-1" 100 7 "refresh-1"
        "Device-A").outcome =
      .ok
        ({ userId := 1, username := "alice", email := "alice@example.com"
           firstName := "Alice", lastName := "Lang", sessionId := none },
          "refresh-1") ∧
    (loginValidate [aliceUser] [] "ALICE" "pw-1" 100 7 "refresh-1"
        "Device-A").table =
      [ { id := 7, userId := 1, refreshToken := "refresh-1"
          deviceInfo := "Device-A", createdAt := 100, lastActivity := 100
          isActive := true } ] :=
  ⟨rfl, rfl⟩

/-- C8: the inactivity sweep keeps the table's length, rewrites every
session field-for-field — flipping `active` from true to false exactly
for sessions active with `last_activity` older than `now` minus the
timeout, and touching no other field — and is idempotent at the same
instant. -/
theorem inactivity_sweep_spec (tbl : SessionTable) (now timeout : Int)
    (i : Nat) (s : Session) (h : tbl.get? i = some s) :
    ((sweepSessions tbl (now - timeout)).length = tbl.length) ∧
    (∃ s2, (sweepSessions tbl (now - timeout)).get? i = some s2 ∧
      s2.isActive = (s.isActive && !decide (s.lastActivity < now - timeout)) ∧
      s2.id = s.id ∧ s2.userId = s.userId ∧ s2.refreshToken = s.refreshToken ∧
      s2.deviceInfo = s.deviceInfo ∧ s2.createdAt = s.createdAt ∧
      s2.lastActivity = s.lastActivity) ∧
    sweepSessions (sweepSessions tbl (now - timeout)) (now - timeout) =
      sweepSessions tbl (now - timeout) := by
  refine ⟨by simp [sweepSessions], ?_, ?_⟩
  · unfold sweepSessions
    rw [List.get?_map, h, Option.map_some']
    refine ⟨_, rfl, ?_⟩
    by_cases hc : (s.isActive && decide (s.lastActivity < now - timeout)) = true
    · rw [if_pos hc]
      obtain ⟨h1, h2⟩ := Bool.and_eq_true_iff.mp hc
      simp [h1, h2]
    · rw [if_neg hc]
      cases ha : s.isActive with
      | false => simp
      | true =>
        cases hd : decide (s.lastActivity < now - timeout) with
        | false => simp [hd]
        | true => exact absurd (by simp [ha, hd]) hc
  · unfold sweepSessions
    rw [List.map_map]
    apply List.map_congr_left
    intro a _
    by_cases hc : (a.isActive && decide (a.lastActivity < now - timeout)) = true
    · simp only [Function.comp_apply, if_pos hc]
      simp
    · simp only [Function.comp_apply, if_neg hc, if_neg hc]

/-- Witness for C8: a concrete two-session table at `now = 100` with a
20-minute timeout; both sessions are stale and get flipped. -/
theorem inactivity_sweep_spec_witness :
    aliceTwoSessions.get? 0 =
      some { id := 11, userId := 1, refreshToken := "rt-11"
             deviceInfo := "Device-A", createdAt := 0, lastActivity := 5
             isActive := true } ∧
    (((sweepSessions aliceTwoSessions (100 - 20)).length =
        aliceTwoSessions.length) ∧
      (∃ s2, (sweepSessions aliceTwoSessions (100 - 20)).get? 0 = some s2 ∧
        s2.isActive =
          (({ id := 11, userId := 1, refreshToken := "rt-11"
              deviceInfo := "Device-A", createdAt := 0, lastActivity := 5
              isActive := true } : Session).isActive &&
            !decide
              (({ id := 11, userId := 1, refreshToken := "rt-11"
                  deviceInfo := "Device-A", createdAt := 0, lastActivity := 5
                  isActive := true } : Session).lastActivity < 100 - 20)) ∧
        s2.id = 11 ∧ s2.userId = 1 ∧ s2.refreshToken = "rt-11" ∧
        s2.deviceInfo = "Device-A" ∧ s2.createdAt = 0 ∧ s2.lastActivity = 5) ∧
      sweepSessions (sweepSessions aliceTwoSessions (100 - 20)) (100 - 20) =
        sweepSessions aliceTwoSessions (100 - 20)) :=
  ⟨rfl,
    inactivity_sweep_spec aliceTwoSessions 100 20 0
      { id := 11, userId := 1, refreshToken := "rt-11"
        deviceInfo := "Device-A", createdAt := 0, lastActivity := 5
        isActive := true } rfl⟩

/-- C9: a logout carrying session A's `session_id` claim deactivates
exactly session A (its row gets `active=false`); session B of the same
principal — any session with a different id — and every other
principal's sessions are returned unchanged in every field.  Without the
claim the logout matches by refresh credential; with neither identifier
every one of the caller's sessions is deactivated, other principals'
sessions again untouched. -/
theorem logout_affects_only_target_session (tbl : SessionTable) (uid : Nat)
    (now : Int) (iA iB : Nat) (A B : Session)
    (hA : tbl.get? iA = some A) (hB : tbl.get? iB = some B)
    (hAu : A.userId = uid) (hBu : B.userId = uid)
    (hAact : A.isActive = true) (hBact : B.isActive = true)
    (hne : B.id ≠ A.id) :
    ((logoutPost tbl uid (some A.id) none now).get? iA =
        some { A with isActive := false, lastActivity := now }) ∧
    ((logoutPost tbl uid (some A.id) none now).get? iB = some B) ∧
    (∀ j s, tbl.get? j = some s → s.userId ≠ uid →
      (logoutPost tbl uid (some A.id) none now).get? j = some s) ∧
    (∀ rt j s, tbl.get? j = some s →
      (logoutPost tbl uid none (some rt) now).get? j =
        some
          (if s.userId = uid ∧ s.refreshToken = rt ∧ s.isActive = true then
            { s with isActive := false, lastActivity := now }
          else s)) ∧
    (∀ j s, tbl.get? j = some s → s.userId ≠ uid →
      (logoutPost tbl uid none none now).get? j = some s) ∧
    (∀ s2, s2 ∈ logoutPost tbl uid none none now → s2.userId = uid →
      s2.isActive = false) := by
  refine ⟨?_, ?_, ?_, ?_, ?_, ?_⟩
  · unfold logoutPost
    rw [List.get?_map, hA, Option.map_some']
    simp [hAu, hAact]
  · unfold logoutPost
    rw [List.get?_map, hB, Option.map_some']
    simp [hne]
  · intro j s hj hsu
    unfold logoutPost
    rw [List.get?_map, hj, Option.map_some']
    simp [hsu]
  · intro rt j s hj
    unfold logoutPost
    rw [List.get?_map, hj, Option.map_some']
    by_cases hcond : s.userId = uid ∧ s.refreshToken = rt ∧ s.isActive = true
    · obtain ⟨h1, h2, h3⟩ := hcond
      simp [h1, h2, h3]
    · rw [if_neg hcond]
      have hfalse : (s.userId == uid && s.refreshToken == rt && s.isActive) = false := by
        cases hb : s.isActive with
        | false => simp [hb]
        | true =>
          by_cases h1 : s.userId = uid
          · by_cases h2 : s.refreshToken = rt
            · exact absurd ⟨h1, h2, hb⟩ hcond
            · simp [h2]
          · simp [h1]
      simp [hfalse]
  · intro j s hj hsu
    unfold logoutPost
    rw [List.get?_map, hj, Option.map_some']
    simp [hsu]
  · intro s2 hmem hu2
    unfold logoutPost at hmem
    obtain ⟨a, _, ha⟩ := List.mem_map.mp hmem
    by_cases hc : (a.userId == uid && a.isActive) = true
    · rw [if_pos hc] at ha
      rw [← ha]
    · rw [if_neg hc] at ha
      subst ha
      cases hact : a.isActive with
      | false => rfl
      | true => exact absurd (by simp [hu2, hact]) hc

/-- Witness for C9: Alice's two concrete sessions; logging out with the
first session's id leaves the second untouched, and the fallback clauses
are instantiated as stated. -/
theorem logout_affects_only_target_session_witness :
    aliceTwoSessions.get? 0 =
      some { id := 11, userId := 1, refreshToken := "rt-11"
             deviceInfo := "Device-A", createdAt := 0, lastActivity := 5
             isActive := true } ∧
    aliceTwoSessions.get? 1 =
      some { id := 12, userId := 1, refreshToken := "rt-12"
             deviceInfo := "Device-B", createdAt := 1, lastActivity := 6
             isActive := true } ∧
    (((logoutPost aliceTwoSessions 1 (some 11) none 9).get? 0 =
        some { id := 11, userId := 1, refreshToken := "rt-11"
               deviceInfo := "Device-A", createdAt := 0, lastActivity := 9
               isActive := false }) ∧
      ((logoutPost aliceTwoSessions 1 (some 11) none 9).get? 1 =
        some { id := 12, userId := 1, refreshToken := "rt-12"
               deviceInfo := "Device-B", createdAt := 1, lastActivity := 6
               isActive := true }) ∧
      (∀ j s, aliceTwoSessions.get? j = some s → s.userId ≠ 1 →
        (logoutPost aliceTwoSessions 1 (some 11) none 9).get? j = some s) ∧
      (∀ rt j s, aliceTwoSessions.get? j = some s →
        (logoutPost aliceTwoSessions 1 none (some rt) 9).get? j =
          some
            (if s.userId = 1 ∧ s.refreshToken = rt ∧ s.isActive = true then
              { s with isActive := false, lastActivity := 9 }
            else s)) ∧
      (∀ j s, aliceTwoSessions.get? j = some s → s.userId ≠ 1 →
        (logoutPost aliceTwoSessions 1 none none 9).get? j = some s) ∧
      (∀ s2, s2 ∈ logoutPost aliceTwoSessions 1 none none 9 → s2.userId = 1 →
        s2.isActive = false)) := by
  have base :=
    logout_affects_only_target_session aliceTwoSessions 1 9 0 1
      { id := 11, userId := 1, refreshToken := "rt-11"
        deviceInfo := "Device-A", createdAt := 0, lastActivity := 5
        isActive := true }
      { id := 12, userId := 1, refreshToken := "rt-12"
        deviceInfo := "Device-B", createdAt := 1, lastActivity := 6
        isActive := true }
      rfl rfl rfl rfl rfl rfl (by decide)
  exact ⟨rfl, rfl, base⟩

/-- C10: the `update-budget-hours` action performs no tier or department
check: for every authenticated principal — read-only and foreign
department-scoped principals included — a request naming a department
succeeds, persists the provided utilized/forecast hours on that
department's budget row, and creates the row with `hours_allocated = 0`
when it does not exist. -/
theorem update_budget_hours_no_permission_check (u : Principal)
    (budgets : List BudgetRow) (d : Department) (hu hf : Option ℚ)
    (hauth : u.isAuthenticated = true) :
    ∃ b bs, updateBudgetHours u budgets (some d) hu hf = .ok b bs ∧
      b ∈ bs ∧ b.department = d ∧
      (∀ q, hu = some q → b.hoursUtilized = q) ∧
      (∀ q, hf = some q → b.hoursForecast = q) ∧
      (budgets.find? (fun bgt => bgt.department == d) = none →
        b.hoursAllocated = 0 ∧ bs = budgets ++ [b]) := by
  cases hfind : budgets.find? (fun bgt => bgt.department == d) with
  | some bgt =>
    have hmem : bgt ∈ budgets := List.mem_of_find?_eq_some hfind
    have hdep : bgt.department = d := by simpa using List.find?_some hfind
    simp only [updateBudgetHours, hfind]
    refine ⟨_, _, rfl, ?_, ?_, ?_, ?_, ?_⟩
    · exact List.mem_map.mpr ⟨bgt, hmem, by simp [hdep]⟩
    · simpa using hdep
    · intro q hq; simp [hq]
    · intro q hq; simp [hq]
    · intro habs; cases habs
  | none =>
    simp only [updateBudgetHours, hfind]
    refine ⟨_, _, rfl, ?_, rfl, ?_, ?_, fun _ => ⟨rfl, rfl⟩⟩
    · simp
    · intro q hq; simp [hq]
    · intro q hq; simp [hq]

/-- Witness for C10: the read-only Head-Engineering principal updates
MED budget hours on a project with no budget rows; the action succeeds
and creates the row. -/
theorem update_budget_hours_no_permission_check_witness :
    headEngineeringPrincipal.isAuthenticated = true ∧
    (∃ b bs,
      updateBudgetHours headEngineeringPrincipal [] (some .med)
          (some 25) none = .ok b bs ∧
      b ∈ bs ∧ b.department = .med ∧
      (∀ q, (some (25 : ℚ)) = some q → b.hoursUtilized = q) ∧
      (∀ q, (none : Option ℚ) = some q → b.hoursForecast = q) ∧
      (([] : List BudgetRow).find? (fun bgt => bgt.department == .med) = none →
        b.hoursAllocated = 0 ∧ bs = [] ++ [b])) :=
  ⟨rfl,
    update_budget_hours_no_permission_check headEngineeringPrincipal [] .med
      (some 25) none rfl⟩

/-- The keys after a dict-style upsert: unchanged when the key is
already bound, else extended by the new key. -/
theorem upsertSig_keys (acc : List (Department × List StageSig))
    (d : Department) (v : List StageSig) :
    (upsertSig acc d v).map Prod.fst =
      if acc.any (·.1 = d) then acc.map Prod.fst
      else acc.map Prod.fst ++ [d] := by
  unfold upsertSig
  split_ifs with h
  · rw [List.map_map]
    apply List.map_congr_left
    intro e _
    by_cases hd : e.1 = d
    · simp [hd]
    · simp [hd]
  · simp

/-- One loop iteration of `payload_stage_signatures` preserves
distinctness of the department keys. -/
theorem payloadStageStep_keys_nodup (acc : List (Department × List StageSig))
    (kv : String × JValue) (h : (acc.map Prod.fst).Nodup) :
    ((payloadStageStep acc kv).map Prod.fst).Nodup := by
  unfold payloadStageStep
  cases hn : normalizeDepartmentCode (.s kv.1) with
  | none => exact h
  | some d =>
    rw [upsertSig_keys]
    split_ifs with hany
    · exact h
    · have hd : d ∉ acc.map Prod.fst := by
        intro hmem
        obtain ⟨e, he, hfst⟩ := List.mem_map.mp hmem
        exact hany (List.any_eq_true.mpr ⟨e, he, by simp [hfst]⟩)
      simp [List.nodup_append, h, hd]

/-- The payload stage-signature map binds each department at most once. -/
theorem payloadStageSignatures_keys_nodup (m : List (String × JValue)) :
    ((payloadStageSignatures m).map Prod.fst).Nodup := by
  unfold payloadStageSignatures
  suffices H : ∀ acc : List (Department × List StageSig),
      (acc.map Prod.fst).Nodup →
      ((m.foldl payloadStageStep acc).map Prod.fst).Nodup from
    H [] (by simp)
  induction m with
  | nil => intro acc h; simpa using h
  | cons kv tail ih =>
    intro acc h
    exact ih _ (payloadStageStep_keys_nodup acc kv h)

/-- On an association list with distinct keys, membership determines the
lookup. -/
theorem lookup_eq_some_of_nodup_of_mem {l : List (Department × List StageSig)}
    {d : Department} {v : List StageSig}
    (hnd : (l.map Prod.fst).Nodup) (hmem : (d, v) ∈ l) :
    l.lookup d = some v := by
  induction l with
  | nil => cases hmem
  | cons e tail ih =>
    rcases e with ⟨k, w⟩
    rw [List.map_cons] at hnd
    have hnd2 := List.nodup_cons.mp hnd
    rcases List.mem_cons.mp hmem with heq | htail
    · rw [← heq]
      simp [List.lookup]
    · have hne : d ≠ k := by
        intro hde
        exact hnd2.1 (hde ▸ List.mem_map.mpr ⟨(d, v), htail, rfl⟩)
      have hbeq : (d == k) = false := by
        simpa using hne
      simp only [List.lookup]
      rw [show (d == k) = false from hbeq]
      exact ih hnd2.2 htail

/-- Membership in the stage-config contribution of the
changed-departments computation: a department counts as changed iff it
has current stage rows but is absent from the payload, or some payload
entry binds it to a signature different from its current one. -/
theorem mem_stageChangedDepartments (p : Project) (m : List (String × JValue))
    (d : Department) :
    d ∈ stageChangedDepartments p m ↔
      ((d ∈ (existingStageSignatures p).map Prod.fst ∧
          d ∉ (payloadStageSignatures m).map Prod.fst) ∨
        (∃ sig, (d, sig) ∈ payloadStageSignatures m ∧
          sig ≠ ((existingStageSignatures p).lookup d).getD [])) := by
  unfold stageChangedDepartments
  simp only [List.mem_append, List.mem_filter, List.mem_map, List.mem_filter,
    decide_eq_true_eq, List.contains, List.elem_eq_mem, Prod.exists]
  constructor
  · rintro (⟨hmem, hnot⟩ | ⟨a, b, ⟨hmem, hne⟩, rfl⟩)
    · exact Or.inl ⟨hmem, by simpa using hnot⟩
    · exact Or.inr ⟨b, hmem, hne⟩
  · rintro (⟨hmem, hnot⟩ | ⟨sig, hmem, hne⟩)
    · exact Or.inl ⟨hmem, by simpa using hnot⟩
    · exact Or.inr ⟨d, sig, ⟨hmem, hne⟩, rfl⟩

/-- When the payload carries a stage dict but no budget-hours and no
visibility key, the changed-departments computation is exactly its
stage-config contribution. -/
theorem changedDepartments_stage_only (p : Project) (data : RequestData)
    (m : JObj)
    (hS : getFirstPresentValue data ["department_stages", "departmentStages"] =
      (.dict m, true))
    (hH : (getFirstPresentValue data
      ["department_hours_allocated", "departmentHoursAllocated"]).2 = false)
    (hV : (getFirstPresentValue data
      ["visible_in_departments", "visibleInDepartments"]).2 = false) :
    changedDepartmentsFromPayload p data = stageChangedDepartments p m.entries := by
  unfold changedDepartmentsFromPayload
  rw [hS]
  rcases hHp : getFirstPresentValue data
      ["department_hours_allocated", "departmentHoursAllocated"] with ⟨hv, hflag⟩
  rw [hHp] at hH
  simp only at hH
  subst hH
  rcases hVp : getFirstPresentValue data
      ["visible_in_departments", "visibleInDepartments"] with ⟨vv, vflag⟩
  rw [hVp] at hV
  simp only at hV
  subst hV
  cases hv <;> cases vv <;> simp

/-- C6 (amended): restricted to payloads whose only per-department
sub-structure is the stage-config dict (no budget-hours and no
visibility keys), a department is included in the changed-departments
computation iff it has current stage rows but is absent from the
payload, or its normalized payload signature differs from its current
signature; in particular a department whose normalized payload signature
equals its current signature is never marked changed, even though the
replacement deletes-then-recreates rows. -/
theorem stage_signature_roundtrip_not_changed (p : Project)
    (data : RequestData) (m : JObj) (d : Department)
    (hS : getFirstPresentValue data ["department_stages", "departmentStages"] =
      (.dict m, true))
    (hH : (getFirstPresentValue data
      ["department_hours_allocated", "departmentHoursAllocated"]).2 = false)
    (hV : (getFirstPresentValue data
      ["visible_in_departments", "visibleInDepartments"]).2 = false) :
    (d ∈ changedDepartmentsFromPayload p data ↔
      ((d ∈ (existingStageSignatures p).map Prod.fst ∧
          d ∉ (payloadStageSignatures m.entries).map Prod.fst) ∨
        (∃ sig, (d, sig) ∈ payloadStageSignatures m.entries ∧
          sig ≠ ((existingStageSignatures p).lookup d).getD []))) ∧
    ((payloadStageSignatures m.entries).lookup d =
        some (((existingStageSignatures p).lookup d).getD []) →
      d ∉ changedDepartmentsFromPayload p data) := by
  have hred := changedDepartments_stage_only p data m hS hH hV
  rw [hred]
  refine ⟨mem_stageChangedDepartments p m.entries d, ?_⟩
  intro hlook hmem
  rcases (mem_stageChangedDepartments p m.entries d).mp hmem with
    ⟨_, habs⟩ | ⟨sig, hsig, hne⟩
  · exact habs (List.mem_map.mpr
      ⟨(d, ((existingStageSignatures p).lookup d).getD []),
        (List.lookup_eq_some_iff.mp hlook).elim
          (fun l1 hl1 => hl1.elim fun l2 hl2 => by rw [hl2.1]; simp),
        rfl⟩)
  · have := lookup_eq_some_of_nodup_of_mem
      (payloadStageSignatures_keys_nodup m.entries) hsig
    rw [hlook] at this
    exact hne (by simpa using this.symm)

/-- The single stage entry of the round-trip payload: identical, after
normalization, to `sampleProject`'s current MED stage row. -/
def stageEntryMED : JValue :=
  .dict (JObj.ofList
    [("stage", .s "CONCEPT"), ("week_start", .i 1), ("week_end", .i 2)])

/-- A payload resubmitting MED's current stage list unchanged while also
raising MED's allocated budget hours. -/
def payloadStageUnchangedHoursChanged : RequestData :=
  [ ("department_stages",
      .dict (JObj.ofList [("MED", .list (JList.ofList [stageEntryMED]))]))
  , ("department_hours_allocated", .dict (JObj.ofList [("MED", .i 25)])) ]

/-- C6 (counterexample): a payload whose MED stage list has the same
normalized signature as the current MED rows nevertheless marks MED as
changed, because the payload also changes MED's budget hours — so the
claim as stated (over every update payload) fails. -/
theorem changed_departments_includes_unchanged_stage_department :
    (payloadStageSignatures
        [("MED", .list (JList.ofList [stageEntryMED]))]).lookup .med =
      some (((existingStageSignatures sampleProject).lookup .med).getD []) ∧
    Department.med ∈
      changedDepartmentsFromPayload sampleProject
        payloadStageUnchangedHoursChanged := by
  constructor
  · decide
  · have hhours :
        hoursChangedDepartments sampleProject [("MED", .i 25)] =
          [Department.med] := by
      have hcomp :
          abs (coerceFloat (JValue.i 25) 0 -
              (((sampleProject.budgets.map fun bgt =>
                    (bgt.department, bgt.hoursAllocated)).reverse.lookup
                  Department.med).getD 0)) >
            (1 / 1000000 : ℚ) := by
        show abs (((25 : Int) : ℚ) - (40 : ℚ)) > (1 / 1000000 : ℚ)
        rw [show ((25 : Int) : ℚ) - (40 : ℚ) = -15 by norm_num]
        norm_num
      unfold hoursChangedDepartments
      simp only [List.filterMap_cons, List.filterMap_nil]
      rw [show normalizeDepartmentCode (JValue.s "MED") = some Department.med
        from rfl]
      simp only [if_pos hcomp]
    have hsplit :
        changedDepartmentsFromPayload sampleProject
            payloadStageUnchangedHoursChanged =
          stageChangedDepartments sampleProject
              [("MED", .list (JList.ofList [stageEntryMED]))] ++
            hoursChangedDepartments sampleProject [("MED", .i 25)] ++ [] := rfl
    rw [hsplit, hhours,
      show stageChangedDepartments sampleProject
          [("MED", .list (JList.ofList [stageEntryMED]))] = [] by decide]
    simp

/-- A payload resubmitting MED's current stage list unchanged, with no
other sub-structure. -/
def payloadStageOnly : RequestData :=
  [ ("department_stages",
      .dict (JObj.ofList [("MED", .list (JList.ofList [stageEntryMED]))])) ]

/-- Witness for the amended C6: the stage-only round-trip payload on
`sampleProject` satisfies the hypotheses, and the conclusion holds at
department MED. -/
theorem stage_signature_roundtrip_not_changed_witness :
    getFirstPresentValue payloadStageOnly
        ["department_stages", "departmentStages"] =
      (.dict (JObj.ofList [("MED", .list (JList.ofList [stageEntryMED]))]),
        true) ∧
    (getFirstPresentValue payloadStageOnly
      ["department_hours_allocated", "departmentHoursAllocated"]).2 = false ∧
    (getFirstPresentValue payloadStageOnly
      ["visible_in_departments", "visibleInDepartments"]).2 = false ∧
    ((Department.med ∈
        changedDepartmentsFromPayload sampleProject payloadStageOnly ↔
      ((Department.med ∈ (existingStageSignatures sampleProject).map Prod.fst ∧
          Department.med ∉
            (payloadStageSignatures
              (JObj.ofList
                [("MED", .list (JList.ofList [stageEntryMED]))]).entries).map
              Prod.fst) ∨
        (∃ sig,
          (Department.med, sig) ∈
            payloadStageSignatures
              (JObj.ofList
                [("MED", .list (JList.ofList [stageEntryMED]))]).entries ∧
          sig ≠
            ((existingStageSignatures sampleProject).lookup .med).getD []))) ∧
      ((payloadStageSignatures
            (JObj.ofList
              [("MED", .list (JList.ofList [stageEntryMED]))]).entries).lookup
          .med =
          some (((existingStageSignatures sampleProject).lookup .med).getD []) →
        Department.med ∉
          changedDepartmentsFromPayload sampleProject payloadStageOnly)) :=
  ⟨rfl, rfl, rfl,
    stage_signature_roundtrip_not_changed sampleProject payloadStageOnly
      (JObj.ofList [("MED", .list (JList.ofList [stageEntryMED]))]) .med rfl rfl
      rfl⟩

end CapacityPlanner
